import Mathlib

set_option maxRecDepth 100000

/-!
Verification of the AI-search route of the shopify-backend repository
(src/routes/aiSearch.js): the product-catalog fetcher with its cache, the
Gemini match resolver with retry and defensive JSON parsing, the search
request handler with its query-result cache and eviction pass.

The JavaScript is embedded shallowly: the two process-wide caches become
explicit state values threaded through the functions, upstream HTTP
traffic (Shopify product pages, Gemini completions) becomes oracle lists
of responses consumed in order, and `Date.now()` becomes a `now : Nat`
parameter (milliseconds).
-/

/-- Model of JavaScript string-or-default on a nullable string field:
`a || b` where `a` is `null`/`undefined`/the empty string falls back to `b`
(all other strings are truthy). -/
def jsOrStr (a : Option String) (b : String) : String :=
  match a with
  | some s => if s = "" then b else s
  | none => b

/-- Truthiness of the nullable `imageUrl` field (`p.imageUrl` in a boolean
position): `null` and the empty string are falsy, every other string is
truthy. -/
def jsTruthyImage : Option String → Bool
  | none => false
  | some s => !(s == "")

/-- Model of JavaScript `s.includes(pat)` on strings: substring test. -/
def jsIncludesStr (s pat : String) : Bool :=
  (List.range (s.toList.length + 1)).any
    (fun i => pat.toList.isPrefixOf (s.toList.drop i))

/-- JSON values, as produced by `JSON.parse`. Numbers are restricted to
integer numerals: no input considered in this development carries a
fractional or exponent numeral. -/
inductive Json where
  | null
  | bool (b : Bool)
  | num (n : Int)
  | str (s : String)
  | arr (items : List Json)
  | obj (fields : List (String × Json))

/-- Skip JSON whitespace (space, tab, newline, carriage return). -/
def skipWs : List Char → List Char
  | c :: cs =>
    if c = ' ' ∨ c = '\t' ∨ c = '\n' ∨ c = '\r' then skipWs cs else c :: cs
  | [] => []

/-- Map a JSON escape character to the character it denotes
(the `\uXXXX` form is not modelled). -/
def escChar : Char → Option Char
  | '"' => some '"'
  | '\\' => some '\\'
  | '/' => some '/'
  | 'b' => some (Char.ofNat 8)
  | 'f' => some (Char.ofNat 12)
  | 'n' => some '\n'
  | 'r' => some '\r'
  | 't' => some '\t'
  | _ => none

/-- Parse the body of a JSON string literal after the opening quote;
returns the decoded characters and the remainder after the closing quote. -/
def psChars : List Char → Option (List Char × List Char)
  | [] => none
  | '"' :: rest => some ([], rest)
  | '\\' :: e :: rest =>
    match escChar e with
    | some c =>
      match psChars rest with
      | some (s, r) => some (c :: s, r)
      | none => none
    | none => none
  | c :: rest =>
    if c = '\\' then none
    else
      match psChars rest with
      | some (s, r) => some (c :: s, r)
      | none => none

/-- Longest prefix of decimal digits. -/
def psDigits : List Char → List Char × List Char
  | c :: cs =>
    if c.isDigit then
      let (d, r) := psDigits cs
      (c :: d, r)
    else ([], c :: cs)
  | [] => ([], [])

/-- Decimal digits to a natural number. -/
def digitsToNat (ds : List Char) : Nat :=
  ds.foldl (fun a c => a * 10 + (c.toNat - 48)) 0

/-- Parse an unsigned JSON integer part: a lone `0`, or a nonzero digit
followed by digits (leading zeros are rejected, as in JSON). -/
def psNat : List Char → Option (Nat × List Char)
  | '0' :: cs =>
    match cs with
    | c :: _ => if c.isDigit then none else some (0, cs)
    | [] => some (0, [])
  | c :: cs =>
    if c.isDigit then
      let (ds, r) := psDigits (c :: cs)
      some (digitsToNat ds, r)
    else none
  | [] => none

/-- Parse a JSON number (integer numerals only). -/
def psNumber : List Char → Option (Int × List Char)
  | '-' :: cs =>
    match psNat cs with
    | some (n, r) => some (-(n : Int), r)
    | none => none
  | cs =>
    match psNat cs with
    | some (n, r) => some ((n : Int), r)
    | none => none

mutual

/-- Recursive-descent JSON value parser, fuelled; models `JSON.parse`
on the grammar described at `Json`. -/
def parseValue : Nat → List Char → Option (Json × List Char)
  | 0, _ => none
  | f + 1, cs =>
    match skipWs cs with
    | 'n' :: 'u' :: 'l' :: 'l' :: r => some (.null, r)
    | 't' :: 'r' :: 'u' :: 'e' :: r => some (.bool true, r)
    | 'f' :: 'a' :: 'l' :: 's' :: 'e' :: r => some (.bool false, r)
    | '"' :: r =>
      match psChars r with
      | some (s, r2) => some (.str (String.mk s), r2)
      | none => none
    | '[' :: r =>
      match skipWs r with
      | ']' :: r2 => some (.arr [], r2)
      | cs2 =>
        match parseItems f cs2 with
        | some (xs, r2) => some (.arr xs, r2)
        | none => none
    | '{' :: r =>
      match skipWs r with
      | '}' :: r2 => some (.obj [], r2)
      | cs2 =>
        match parseFields f cs2 with
        | some (fs, r2) => some (.obj fs, r2)
        | none => none
    | cs2 =>
      match psNumber cs2 with
      | some (n, r) => some (.num n, r)
      | none => none

/-- Comma-separated JSON array items up to the closing bracket. -/
def parseItems : Nat → List Char → Option (List Json × List Char)
  | 0, _ => none
  | f + 1, cs =>
    match parseValue f cs with
    | some (v, r) =>
      match skipWs r with
      | ',' :: r2 =>
        match parseItems f r2 with
        | some (xs, r3) => some (v :: xs, r3)
        | none => none
      | ']' :: r2 => some ([v], r2)
      | _ => none
    | none => none

/-- Comma-separated JSON object members up to the closing brace. -/
def parseFields : Nat → List Char → Option (List (String × Json) × List Char)
  | 0, _ => none
  | f + 1, cs =>
    match skipWs cs with
    | '"' :: r =>
      match psChars r with
      | some (k, r2) =>
        match skipWs r2 with
        | ':' :: r3 =>
          match parseValue f r3 with
          | some (v, r4) =>
            match skipWs r4 with
            | ',' :: r5 =>
              match parseFields f r5 with
              | some (fs, r6) => some ((String.mk k, v) :: fs, r6)
              | none => none
            | '}' :: r5 => some ([(String.mk k, v)], r5)
            | _ => none
          | none => none
        | _ => none
      | none => none
    | _ => none

end

/-- Model of `JSON.parse`: parse a complete JSON document, allowing
surrounding whitespace; `none` models a thrown `SyntaxError`. -/
def parseJson (s : String) : Option Json :=
  match parseValue (s.toList.length + 1) s.toList with
  | some (v, r) => if (skipWs r).isEmpty then some v else none
  | none => none

/-- Model of `raw.match(/\x7b[\s\S]*\x7d/)`: the regular expression is
greedy, so a match runs from the first opening brace to the last closing
brace of the string; it exists exactly when some opening brace precedes
some closing brace. -/
def braceExtract (raw : String) : Option String :=
  let cs := raw.toList
  match cs.findIdx? (fun c => c = '{'), cs.reverse.findIdx? (fun c => c = '}') with
  | some i, some k =>
    let j := cs.length - 1 - k
    if i < j then some (String.mk ((cs.drop i).take (j - i + 1))) else none
  | _, _ => none

/-- The defensive parse of the raw Gemini response text
(`src/routes/aiSearch.js` lines 417 to 423): direct `JSON.parse`; on
failure, `JSON.parse` of the brace-extracted substring when one exists
(a failure of this second parse is a thrown `SyntaxError`, modelled as
`.error`); when no brace-delimited substring exists, the literal
`\x7b matches: [] \x7d` object. -/
def geminiParse (raw : String) : Except String Json :=
  match parseJson raw with
  | some v => .ok v
  | none =>
    match braceExtract raw with
    | some s =>
      match parseJson s with
      | some v => .ok v
      | none => .error "SyntaxError"
    | none => .ok (Json.obj [("matches", Json.arr [])])

/-- A variant node of the upstream GraphQL product query
(fields of `variants(first: 10).edges[].node`). -/
structure VariantNode where
  id : String
  title : String
  price : Option String
  sku : String
  inventoryQuantity : Int
  availableForSale : Bool

/-- A product node of the upstream GraphQL product query. `images` is the
list of image url strings of `images(first: 1).edges`; `minPriceAmount`
and `minPriceCurrency` are `priceRangeV2.minVariantPrice.amount` and
`.currencyCode`. -/
structure ProductNode where
  id : String
  handle : String
  title : String
  vendor : String
  tags : List String
  description : Option String
  status : String
  productType : String
  variants : List VariantNode
  images : List String
  minPriceAmount : String
  minPriceCurrency : String

/-- The flattened search read-model entry built per variant (or per
variant-less product). Fields present only on the per-variant shape
(`productTitle`, `variantTitle`, `sku`, `inventoryQuantity`,
`availableForSale`) are `Option`s, absent on the variant-less shape. -/
structure ProductCapsule where
  id : String
  handle : String
  title : String
  productTitle : Option String
  variantTitle : Option String
  vendor : String
  tags : List String
  productType : String
  summary : String
  imageUrl : Option String
  price : String
  currency : String
  sku : Option String
  inventoryQuantity : Option Int
  availableForSale : Option Bool
  status : String
deriving DecidableEq

/-- `node.description ? node.description.slice(0, 200) : ""`:
a null or empty description gives the empty summary, otherwise the first
200 characters. -/
def sliceSummary (description : Option String) : String :=
  match description with
  | some d => if d = "" then "" else d.take 200
  | none => ""

/-- `node.images.edges[0]?.node?.url || null`: first image url, with a
missing first edge or an empty url collapsing to null. -/
def capsuleImage (images : List String) : Option String :=
  match images.head? with
  | some u => if u = "" then none else some u
  | none => none

/-- Capsule flattening of one product node (`src/routes/aiSearch.js`
lines 324 to 361): one capsule per variant when the variant list is
nonempty — titled with the bare product title when the variant is titled
Default Title, and with the product title, a dash separator and the
variant title otherwise — and a single capsule otherwise. -/
def flattenNode (node : ProductNode) : List ProductCapsule :=
  if node.variants.length > 0 then
    node.variants.map (fun v =>
      { id := node.id ++ "-" ++ v.id
        handle := node.handle
        title := if v.title = "Default Title" then node.title
                 else node.title ++ " - " ++ v.title
        productTitle := some node.title
        variantTitle := some v.title
        vendor := node.vendor
        tags := node.tags
        productType := node.productType
        summary := sliceSummary node.description
        imageUrl := capsuleImage node.images
        price := jsOrStr v.price node.minPriceAmount
        currency := node.minPriceCurrency
        sku := some v.sku
        inventoryQuantity := some v.inventoryQuantity
        availableForSale := some v.availableForSale
        status := node.status })
  else
    [{ id := node.id
       handle := node.handle
       title := node.title
       productTitle := none
       variantTitle := none
       vendor := node.vendor
       tags := node.tags
       productType := node.productType
       summary := sliceSummary node.description
       imageUrl := capsuleImage node.images
       price := node.minPriceAmount
       currency := node.minPriceCurrency
       sku := none
       inventoryQuantity := none
       availableForSale := none
       status := node.status }]

/-- One upstream response to a paginated product-page request: either the
transport layer throws (a rejected promise), or a body arrives carrying a
GraphQL `errors` presence flag, the page of product nodes, and the page
info used to continue the loop. -/
inductive PageResponse where
  | throws (msg : String)
  | page (errors : Bool) (nodes : List ProductNode) (hasNextPage : Bool)
      (endCursor : Option String)

/-- Outcome of the pagination loop: a returned product list, a thrown
error propagating out of the whole fetch, or an under-specified oracle
(the loop still wanted another page; excluded by hypotheses). -/
inductive FetchResult where
  | ok (products : List ProductCapsule)
  | thrown (msg : String)
  | incomplete
deriving DecidableEq

/-- The `while (hasNextPage)` pagination loop body of
`fetchProductsForCapsules`, consuming the oracle of page responses in
order and accumulating flattened capsules; also counts the upstream page
requests made. On a body whose GraphQL `errors` field is present the
source does `break`, so the loop returns the accumulation so far. -/
def fetchLoop : List PageResponse → List ProductCapsule →
    FetchResult × Nat
  | [], _ => (.incomplete, 0)
  | .throws msg :: _, _ => (.thrown msg, 1)
  | .page errors nodes hasNextPage _ :: rest, acc =>
    if errors then (.ok acc, 1)
    else
      let acc2 := acc ++ (nodes.map flattenNode).flatten
      if hasNextPage then
        let (r, n) := fetchLoop rest acc2
        (r, n + 1)
      else (.ok acc2, 1)

/-- The singleton product cache: `\x7b data: null, timestamp: 0 \x7d`
initially. -/
structure ProductCacheState where
  data : Option (List ProductCapsule)
  timestamp : Nat
deriving DecidableEq

/-- PRODUCT_CACHE_DURATION, milliseconds. -/
def PRODUCT_CACHE_DURATION : Nat := 10 * 60 * 1000

/-- SEARCH_CACHE_DURATION, milliseconds. -/
def SEARCH_CACHE_DURATION : Nat := 5 * 60 * 1000

/-- `fetchProductsForCapsules` (`src/routes/aiSearch.js` lines 241 to
375): serve the cached snapshot when present and younger than the
freshness threshold; otherwise run the pagination loop and, whenever the
loop returns (also after a `break` on GraphQL errors), overwrite the
cache with the returned list and the current time. A thrown transport
error leaves the cache untouched. Returns the result, the cache state
after the call, and the number of upstream page requests made. -/
def fetchProductsForCapsules (st : ProductCacheState) (now : Nat)
    (pages : List PageResponse) :
    FetchResult × ProductCacheState × Nat :=
  let fresh :=
    match fetchLoop pages [] with
    | (.ok products, n) => (FetchResult.ok products, ⟨some products, now⟩, n)
    | (.thrown m, n) => (FetchResult.thrown m, st, n)
    | (.incomplete, n) => (FetchResult.incomplete, st, n)
  match st.data with
  | some d =>
    if now - st.timestamp < PRODUCT_CACHE_DURATION then (.ok d, st, 0)
    else fresh
  | none => fresh

/-- One upstream response of the Gemini endpoint to one attempt: an HTTP
success carrying the first candidate text (absent or empty text falls back
to the literal text of an empty object), or a thrown request error whose
`error.response?.status` is the given optional status. -/
inductive AiAttempt where
  | respond (text : Option String)
  | fail (status : Option Nat) (msg : String)

/-- The failure surfaced by the retry loop. -/
inductive GemError where
  | rateLimitExceeded
  | upstream (status : Option Nat) (msg : String)
  | parseFailure
deriving DecidableEq

/-- `error.message` of the surfaced failure, as used by the route handler
to pick the response status. The `parseFailure` message stands for the
`SyntaxError` message of the rethrown JSON parse error. -/
def gemErrorMessage : GemError → String
  | .rateLimitExceeded => "Gemini API rate limit exceeded. Please try again in 30 seconds."
  | .upstream _ m => m
  | .parseFailure => "Unexpected token"

/-- Result slot of the retry loop. -/
inductive GemResult where
  | ok (j : Json)
  | error (e : GemError)

/-- Whole outcome of `geminiSearchWithRetry`: the result, the number of
attempts made (upstream calls), and the backoff delays slept in order,
in milliseconds. -/
structure GeminiOutcome where
  result : GemResult
  attempts : Nat
  delays : List Nat

/-- `resp.data.candidates?.[0]?.content?.parts?.[0]?.text || "\x7b\x7d"`. -/
def geminiRaw (text : Option String) : String :=
  match text with
  | some t => if t = "" then "{}" else t
  | none => "{}"

/-- The `for (let attempt = 0; ...)` loop of `geminiSearchWithRetry`
(`src/routes/aiSearch.js` lines 401 to 446): a successful response is
parsed defensively (a parse error thrown out of the catch block is caught
by the outer handler of the loop, is not a 429, and is rethrown); a
thrown request error with status 429 sleeps `2 ^ attempt * 1000`
milliseconds and retries while attempts remain, and surfaces the
rate-limit error once they are exhausted; any other error is rethrown at
once. -/
def geminiAttemptLoop : List AiAttempt → Nat → Nat → GeminiOutcome
  | [], _, _ => ⟨.error (.upstream none "no response"), 0, []⟩
  | .respond text :: _, _, _ =>
    match geminiParse (geminiRaw text) with
    | .ok v => ⟨.ok v, 1, []⟩
    | .error _ => ⟨.error .parseFailure, 1, []⟩
  | .fail status msg :: rest, attempt, maxRetries =>
    if status = some 429 ∧ attempt < maxRetries - 1 then
      let o := geminiAttemptLoop rest (attempt + 1) maxRetries
      ⟨o.result, o.attempts + 1, (2 ^ attempt * 1000) :: o.delays⟩
    else if status = some 429 then ⟨.error .rateLimitExceeded, 1, []⟩
    else ⟨.error (.upstream status msg), 1, []⟩

/-- `geminiSearchWithRetry(userQuery, products)` with the default
`maxRetries = 3`, abstracted over the oracle of upstream attempt
outcomes (the prompt text does not influence control flow). -/
def geminiSearchWithRetry (oracle : List AiAttempt) : GeminiOutcome :=
  geminiAttemptLoop oracle 0 3

/-- Property read on a parsed JSON object; with duplicate members the last
one wins, as in `JSON.parse`. -/
def objGet (fields : List (String × Json)) (k : String) : Option Json :=
  match fields.reverse.find? (fun f => f.1 == k) with
  | some f => some f.2
  | none => none

/-- `result.matches` where the handler then calls `.includes` on it: the
array of the `matches` property. A missing property (or one that is not
an array) makes the later `.includes(p.title)` call a runtime failure of
the handler, modelled as `none`. (A string-valued `matches` would instead
substring-search in JavaScript; no claim exercises that shape.) -/
def resultMatches : Json → Option (List Json)
  | .obj fields =>
    match objGet fields "matches" with
    | some (.arr xs) => some xs
    | _ => none
  | _ => none

/-- `result.matches.includes(p.title)` for an array value: SameValueZero
membership, which on a string argument holds exactly for equal string
elements. -/
def jsArrContainsStr (xs : List Json) (t : String) : Bool :=
  xs.any (fun j =>
    match j with
    | .str s => s == t
    | _ => false)

/-- `products.filter(p => result.matches.includes(p.title) && p.imageUrl)`
(`src/routes/aiSearch.js` line 494). -/
def matchedProducts (products : List ProductCapsule) (xs : List Json) :
    List ProductCapsule :=
  products.filter (fun p => jsArrContainsStr xs p.title && jsTruthyImage p.imageUrl)

/-- The JSON payload built for a successful search and stored in the
search cache; cache-hit responses return the stored payload with
`cached` overridden to true and a `cacheAge` member added (absent, i.e.
`none`, on stored and fresh payloads). The first member is named
`matches` in the JavaScript object; `matches` is a reserved word in
Lean, so the field is called `matchList` here. -/
structure ResponsePayload where
  matchList : List ProductCapsule
  totalProductsSearched : Nat
  searchQuery : String
  cached : Bool
  cacheAge : Option String
deriving DecidableEq

/-- One entry of the search cache map. -/
structure SearchCacheEntry where
  data : ResponsePayload
  timestamp : Nat
deriving DecidableEq

/-- `searchCache.get(key)` on the insertion-ordered map, modelled as an
association list with unique keys. -/
def mapGet (sc : List (String × SearchCacheEntry)) (k : String) :
    Option SearchCacheEntry :=
  match sc.find? (fun kv => kv.1 == k) with
  | some kv => some kv.2
  | none => none

/-- `searchCache.set(key, entry)`: overwrite in place when the key exists
(keeping its insertion position, as a JavaScript Map does), append
otherwise. -/
def mapSet : List (String × SearchCacheEntry) → String → SearchCacheEntry →
    List (String × SearchCacheEntry)
  | [], k, e => [(k, e)]
  | kv :: rest, k, e =>
    if kv.1 = k then (k, e) :: rest else kv :: mapSet rest k e

/-- Comparator order of the eviction sort:
`(a, b) => a[1].timestamp - b[1].timestamp`, ascending timestamps. -/
def tsLe (a b : String × SearchCacheEntry) : Prop :=
  a.2.timestamp ≤ b.2.timestamp

instance : DecidableRel tsLe :=
  fun a b => inferInstanceAs (Decidable (a.2.timestamp ≤ b.2.timestamp))

instance : IsTotal (String × SearchCacheEntry) tsLe :=
  ⟨fun a b => Nat.le_total a.2.timestamp b.2.timestamp⟩

instance : IsTrans (String × SearchCacheEntry) tsLe :=
  ⟨fun _ _ _ h1 h2 => Nat.le_trans h1 h2⟩

/-- `Array.from(searchCache.entries()).sort((a, b) => a[1].timestamp -
b[1].timestamp)`: a stable ascending sort of the entries by timestamp,
modelled by stable insertion sort. -/
def sortedEntries (sc : List (String × SearchCacheEntry)) :
    List (String × SearchCacheEntry) :=
  List.insertionSort tsLe sc

/-- The cache-cleaning pass of the route handler
(`src/routes/aiSearch.js` lines 510 to 518): when the map holds more than
100 entries, sort them by timestamp, take the first 20 keys and delete
them; returns the cleaned map and the deleted keys (empty when the size
guard fails). -/
def evictOld (sc : List (String × SearchCacheEntry)) :
    List (String × SearchCacheEntry) × List String :=
  if sc.length > 100 then
    let entriesToDelete := ((sortedEntries sc).take 20).map Prod.fst
    (sc.filter (fun kv => !(entriesToDelete.contains kv.1)), entriesToDelete)
  else (sc, [])

/-- Whole mutable state of the route module. -/
structure HandlerState where
  searchCache : List (String × SearchCacheEntry)
  productCache : ProductCacheState
deriving DecidableEq

/-- Count of upstream calls made while serving one request: product page
requests and Gemini attempts. -/
structure HandlerCalls where
  productPages : Nat
  aiAttempts : Nat
deriving DecidableEq

/-- Response sent for one request: the 400 missing-query rejection, a JSON
payload, or an error response with its HTTP status and detail message. -/
inductive HandlerResponse where
  | badRequest
  | okPayload (p : ResponsePayload)
  | errResp (status : Nat) (details : String)
deriving DecidableEq

/-- Model of `query.toLowerCase()` (ASCII case mapping), written over the
character list so that it evaluates inside the kernel. -/
def jsToLower (s : String) : String :=
  String.mk (s.toList.map Char.toLower)

/-- Model of `.trim()`: strip leading and trailing whitespace. -/
def jsTrim (s : String) : String :=
  String.mk (((s.toList.dropWhile Char.isWhitespace).reverse.dropWhile
    Char.isWhitespace).reverse)

/-- `query.toLowerCase().trim()`, the cache key normalization. -/
def normalizeKey (q : String) : String := jsTrim (jsToLower q)

/-- `Math.round((now - cached.timestamp) / 1000) + "s"`. -/
def cacheAgeString (now ts : Nat) : String :=
  toString ((now - ts + 500) / 1000) ++ "s"

/-- `err.message.includes("rate limit") ? 429 : 500`. -/
def errStatusOf (msg : String) : Nat :=
  if jsIncludesStr msg "rate limit" then 429 else 500

/-- The `responseData` object built on a successful miss: the filtered
matches, the catalog size, the original query text, and the not-cached
flag. -/
def missPayload (products : List ProductCapsule) (xs : List Json)
    (q : String) : ResponsePayload :=
  { matchList := matchedProducts products xs
    totalProductsSearched := products.length
    searchQuery := q
    cached := false
    cacheAge := none }

/-- The cache-miss path of the route handler (`src/routes/aiSearch.js`
lines 487 to 520): fetch the catalog (cache-aware), run the Gemini search
with retry, filter the matches, build the payload, store it under the
normalized key with the current timestamp, and run the eviction pass.
Any thrown error is turned into an error response by the surrounding
catch, with status 429 exactly when the message mentions the rate limit;
the product cache keeps whatever state the fetch left it in. -/
def searchMiss (st : HandlerState) (q ck : String) (now : Nat)
    (pages : List PageResponse) (ai : List AiAttempt) :
    HandlerResponse × HandlerState × HandlerCalls :=
  match fetchProductsForCapsules st.productCache now pages with
  | (.thrown msg, pst, np) =>
    (.errResp (errStatusOf msg) msg, ⟨st.searchCache, pst⟩, ⟨np, 0⟩)
  | (.incomplete, pst, np) =>
    (.errResp 500 "pagination oracle exhausted", ⟨st.searchCache, pst⟩, ⟨np, 0⟩)
  | (.ok products, pst, np) =>
    match (geminiSearchWithRetry ai).result with
    | .error e =>
      (.errResp (errStatusOf (gemErrorMessage e)) (gemErrorMessage e),
       ⟨st.searchCache, pst⟩, ⟨np, (geminiSearchWithRetry ai).attempts⟩)
    | .ok j =>
      match resultMatches j with
      | none =>
        (.errResp 500 "matches is not an array",
         ⟨st.searchCache, pst⟩, ⟨np, (geminiSearchWithRetry ai).attempts⟩)
      | some xs =>
        (.okPayload (missPayload products xs q),
         ⟨(evictOld (mapSet st.searchCache ck
             ⟨missPayload products xs q, now⟩)).1, pst⟩,
         ⟨np, (geminiSearchWithRetry ai).attempts⟩)

/-- The POST route handler (`src/routes/aiSearch.js` lines 465 to 534):
reject a missing or empty query; normalize it to the cache key by
lower-casing and trimming; serve a fresh search-cache entry annotated
with `cached: true` and the cache age, touching no upstream service and
no state; otherwise run the miss path. -/
def handlePost (st : HandlerState) (query : Option String) (now : Nat)
    (pages : List PageResponse) (ai : List AiAttempt) :
    HandlerResponse × HandlerState × HandlerCalls :=
  match query with
  | none => (.badRequest, st, ⟨0, 0⟩)
  | some q =>
    if q = "" then (.badRequest, st, ⟨0, 0⟩)
    else
      let ck := normalizeKey q
      match mapGet st.searchCache ck with
      | some entry =>
        if now - entry.timestamp < SEARCH_CACHE_DURATION then
          (.okPayload { entry.data with
              cached := true
              cacheAge := some (cacheAgeString now entry.timestamp) },
           st, ⟨0, 0⟩)
        else searchMiss st q ck now pages ai
      | none => searchMiss st q ck now pages ai

/-- A variant-less sample product node used by concrete instances. -/
def sampleNode : ProductNode :=
  { id := "gid1", handle := "red-shoes", title := "Red Shoes", vendor := "Acme",
    tags := ["shoes"], description := some "Nice red shoes", status := "ACTIVE",
    productType := "Footwear", variants := [], images := ["http://img/1"],
    minPriceAmount := "10.00", minPriceCurrency := "USD" }

/-- The capsule that `flattenNode` yields for `sampleNode`. -/
def sampleCapsule : ProductCapsule :=
  { id := "gid1", handle := "red-shoes", title := "Red Shoes",
    productTitle := none, variantTitle := none, vendor := "Acme",
    tags := ["shoes"], productType := "Footwear", summary := "Nice red shoes",
    imageUrl := some "http://img/1", price := "10.00", currency := "USD",
    sku := none, inventoryQuantity := none, availableForSale := none,
    status := "ACTIVE" }

/-- A sample variant node. -/
def mkVariant (i t : String) : VariantNode :=
  { id := i, title := t, price := some "5.00", sku := "SKU-" ++ i,
    inventoryQuantity := 3, availableForSale := true }

/-- A bare sample capsule with a chosen title and image, used by concrete
instances about the match filter. -/
def mkCapsule (t : String) (img : Option String) : ProductCapsule :=
  { id := t, handle := t, title := t, productTitle := none,
    variantTitle := none, vendor := "V", tags := [], productType := "",
    summary := "", imageUrl := img, price := "1.00", currency := "USD",
    sku := none, inventoryQuantity := none, availableForSale := none,
    status := "ACTIVE" }

lemma jsArrContainsStr_eq_true_iff (xs : List Json) (t : String) :
    jsArrContainsStr xs t = true ↔ Json.str t ∈ xs := by
  unfold jsArrContainsStr
  rw [List.any_eq_true]
  constructor
  · rintro ⟨j, hj, hm⟩
    cases j with
    | str s =>
      have hst : s = t := by simpa using hm
      subst hst
      exact hj
    | null => simp at hm
    | bool b => simp at hm
    | num n => simp at hm
    | arr items => simp at hm
    | obj fields => simp at hm
  · intro hmem
    exact ⟨Json.str t, hmem, by simp⟩

lemma mapGet_mapSet_self (sc : List (String × SearchCacheEntry))
    (k : String) (e : SearchCacheEntry) :
    mapGet (mapSet sc k e) k = some e := by
  induction sc with
  | nil => simp [mapGet, mapSet, List.find?]
  | cons kv rest ih =>
    by_cases h : kv.1 = k
    · simp [mapGet, mapSet, h, List.find?]
    · simpa [mapGet, mapSet, h, List.find?, h] using ih

lemma mapSet_length_le (sc : List (String × SearchCacheEntry))
    (k : String) (e : SearchCacheEntry) :
    (mapSet sc k e).length ≤ sc.length + 1 := by
  induction sc with
  | nil => simp [mapSet]
  | cons kv rest ih =>
    by_cases h : kv.1 = k
    · simp [mapSet, h]
    · simp only [mapSet, if_neg h, List.length_cons]
      omega

lemma evictOld_of_le (sc : List (String × SearchCacheEntry))
    (h : sc.length ≤ 100) : evictOld sc = (sc, []) := by
  unfold evictOld
  rw [if_neg (by omega)]

/-- A sample product node titled X with variants Small and Large. -/
def sampleXNode : ProductNode :=
  { id := "gidX", handle := "x", title := "X", vendor := "Acme",
    tags := [], description := none, status := "ACTIVE", productType := "",
    variants := [mkVariant "v1" "Small", mkVariant "v2" "Large"],
    images := ["http://img/x"], minPriceAmount := "4.00",
    minPriceCurrency := "USD" }

/-- C6: capsule flattening yields one capsule per variant when the variant
list is nonempty — titled with the product title, a dash separator and the
variant title, except that a variant titled Default Title yields the bare
product title — and exactly one capsule, titled with the product title,
when the variant list is empty; in particular the product X with variants
Small and Large yields exactly the capsules titled X - Small and
X - Large. -/
theorem flattenNode_titles_C6 :
    (∀ node : ProductNode,
      (flattenNode node).map (fun c => c.title) =
        (if node.variants.length > 0 then
          node.variants.map (fun v =>
            if v.title = "Default Title" then node.title
            else node.title ++ " - " ++ v.title)
        else [node.title]) ∧
      (flattenNode node).length =
        (if node.variants.length > 0 then node.variants.length else 1)) ∧
    (flattenNode sampleXNode).map (fun c => c.title) =
      ["X - Small", "X - Large"] := by
  constructor
  · intro node
    unfold flattenNode
    by_cases h : node.variants.length > 0
    · simp only [if_pos h]
      exact ⟨by rw [List.map_map]; rfl, by rw [List.length_map]⟩
    · simp only [if_neg h]
      exact ⟨rfl, rfl⟩
  · rfl

/-- C7: the matched list of the handler is exactly the catalog capsules
whose title belongs to the resolver match set and whose image reference is
non-null; a match-set title on no capsule contributes nothing, and a
matching capsule with a null image is excluded. The source filter tests
JavaScript truthiness of the image url; on catalogs whose capsules never
carry an empty-string url (every capsule built by flattenNode satisfies
this, `capsuleImage` collapsing an empty url to null) truthiness
coincides with the non-null test of the claim. -/
theorem matchedProducts_C7 (products : List ProductCapsule) (xs : List Json)
    (himg : ∀ p ∈ products, p.imageUrl ≠ some "") :
    matchedProducts products xs =
      products.filter
        (fun p => jsArrContainsStr xs p.title && p.imageUrl.isSome) ∧
    ∀ p, p ∈ matchedProducts products xs ↔
      p ∈ products ∧ Json.str p.title ∈ xs ∧ p.imageUrl ≠ none := by
  have htr : ∀ p ∈ products, jsTruthyImage p.imageUrl = p.imageUrl.isSome := by
    intro p hp
    cases hv : p.imageUrl with
    | none => rfl
    | some s =>
      have hs : s ≠ "" := by
        intro hs0
        exact himg p hp (by rw [hv, hs0])
      simp [jsTruthyImage, hs]
  constructor
  · unfold matchedProducts
    apply List.filter_congr
    intro p hp
    rw [htr p hp]
  · intro p
    unfold matchedProducts
    rw [List.mem_filter]
    constructor
    · rintro ⟨hp, hcond⟩
      rw [Bool.and_eq_true] at hcond
      obtain ⟨hc, ht⟩ := hcond
      refine ⟨hp, (jsArrContainsStr_eq_true_iff xs p.title).mp hc, ?_⟩
      intro hnone
      rw [hnone] at ht
      simp [jsTruthyImage] at ht
    · rintro ⟨hp, hc, hnn⟩
      refine ⟨hp, ?_⟩
      rw [Bool.and_eq_true]
      refine ⟨(jsArrContainsStr_eq_true_iff xs p.title).mpr hc, ?_⟩
      rw [htr p hp]
      cases hv : p.imageUrl with
      | none => exact absurd hv hnn
      | some s => rfl

/-- Witness for matchedProducts_C7: a two-capsule catalog, one capsule
with a null image; the filter keeps only the imaged capsule whose title is
named, and the named-but-absent title Ghost contributes nothing. -/
theorem matchedProducts_C7_witness :
    (∀ p ∈ [mkCapsule "Red Shoes" (some "http://img/1"),
            mkCapsule "Blue Hat" none], p.imageUrl ≠ some "") ∧
    matchedProducts
        [mkCapsule "Red Shoes" (some "http://img/1"), mkCapsule "Blue Hat" none]
        [Json.str "Red Shoes", Json.str "Blue Hat", Json.str "Ghost"] =
      [mkCapsule "Red Shoes" (some "http://img/1"),
       mkCapsule "Blue Hat" none].filter
        (fun p => jsArrContainsStr
            [Json.str "Red Shoes", Json.str "Blue Hat", Json.str "Ghost"]
            p.title && p.imageUrl.isSome) :=
  ⟨by decide, (matchedProducts_C7 _ _ (by decide)).1⟩

/-- C8: while the product cache holds data younger than the ten-minute
threshold the fetch returns the cached sequence unchanged, leaves the
state untouched and makes no upstream page request; once the age reaches
the threshold, the next call that paginates successfully replaces the
snapshot and the timestamp together. -/
theorem fetchProducts_cache_C8 (st : ProductCacheState) (now : Nat)
    (pages : List PageResponse) (d ps : List ProductCapsule) (n : Nat) :
    (st.data = some d → now - st.timestamp < PRODUCT_CACHE_DURATION →
      fetchProductsForCapsules st now pages = (.ok d, st, 0)) ∧
    (PRODUCT_CACHE_DURATION ≤ now - st.timestamp →
      fetchLoop pages [] = (.ok ps, n) →
      fetchProductsForCapsules st now pages =
        (.ok ps, ⟨some ps, now⟩, n)) := by
  constructor
  · intro hd hf
    unfold fetchProductsForCapsules
    rw [hd]
    simp [hf]
  · intro hage hloop
    unfold fetchProductsForCapsules
    cases hsd : st.data with
    | none => simp [hloop]
    | some d2 => simp [Nat.not_lt.mpr hage, hloop]

/-- Witness for fetchProducts_cache_C8: a fresh hit at age 1 ms serves the
cached snapshot without any page request; at age exactly the threshold the
same state refetches one page and overwrites both fields. -/
theorem fetchProducts_cache_C8_witness :
    fetchProductsForCapsules ⟨some [sampleCapsule], 0⟩ 1
        [PageResponse.page false [] false none] =
      (.ok [sampleCapsule], ⟨some [sampleCapsule], 0⟩, 0) ∧
    fetchProductsForCapsules ⟨some [sampleCapsule], 0⟩ 600000
        [PageResponse.page false [sampleNode] false none] =
      (.ok [sampleCapsule], ⟨some [sampleCapsule], 600000⟩, 1) :=
  ⟨(fetchProducts_cache_C8 _ 1 _ [sampleCapsule] [sampleCapsule] 0).1
      rfl (by decide),
   (fetchProducts_cache_C8 _ 600000 _ [sampleCapsule] [sampleCapsule] 1).2
      (by decide) (by decide)⟩

/-- C1 failing input: the product cache is empty and the upstream serves a
first page (one product, next page announced) and then a body whose
GraphQL errors field is present. The pagination loop breaks out, and the
fetch then caches and returns the partial one-page accumulation instead of
abandoning it and propagating a failure: the claimed clean-or-complete
cache invariant does not hold of the code. (A thrown transport error, by
contrast, does propagate and leaves the cache untouched.) -/
theorem fetch_partial_cache_C1 :
    fetchProductsForCapsules ⟨none, 0⟩ 0
        [PageResponse.page false [sampleNode] true (some "c1"),
         PageResponse.page true [] false none] =
      (.ok [sampleCapsule], ⟨some [sampleCapsule], 0⟩, 2) := by decide

/-- Three consecutive 429 failures from the AI endpoint. -/
def persistent429 : List AiAttempt :=
  [AiAttempt.fail (some 429) "Request failed with status code 429",
   AiAttempt.fail (some 429) "Request failed with status code 429",
   AiAttempt.fail (some 429) "Request failed with status code 429"]

/-- C2 counterexample: under persistent 429 the loop makes 3 attempts but
sleeps only twice between them, 1000 ms then 2000 ms; the backoff waits
are computed as `2 ^ attempt * 1000` for attempts 0 and 1 only, so the
claimed third 4000 ms delay never occurs. -/
theorem gemini_retry_C2_cex :
    (geminiSearchWithRetry persistent429).attempts = 3 ∧
    (geminiSearchWithRetry persistent429).delays = [1000, 2000] ∧
    (geminiSearchWithRetry persistent429).delays ≠ [1000, 2000, 4000] := by
  refine ⟨rfl, rfl, by decide⟩

lemma geminiAttemptLoop_retry_step (m1 : String) (rest2 : List AiAttempt)
    (attempt : Nat) (h : attempt < 2) :
    geminiAttemptLoop (AiAttempt.fail (some 429) m1 :: rest2) attempt 3 =
      ⟨(geminiAttemptLoop rest2 (attempt + 1) 3).result,
       (geminiAttemptLoop rest2 (attempt + 1) 3).attempts + 1,
       (2 ^ attempt * 1000) ::
         (geminiAttemptLoop rest2 (attempt + 1) 3).delays⟩ := by
  generalize hX : geminiAttemptLoop rest2 (attempt + 1) 3 = X
  unfold geminiAttemptLoop
  rw [if_pos ⟨rfl, by omega⟩, hX]

lemma geminiAttemptLoop_non429_stop (s : Option Nat) (m : String)
    (rest : List AiAttempt) (attempt : Nat) (hs : s ≠ some 429) :
    geminiAttemptLoop (AiAttempt.fail s m :: rest) attempt 3 =
      ⟨GemResult.error (GemError.upstream s m), 1, []⟩ := by
  unfold geminiAttemptLoop
  rw [if_neg (fun hc => hs hc.1), if_neg hs]

/-- C2 (amended): the resolver retries only on HTTP 429; under persistent
429 it makes exactly 3 attempts total, sleeping 1 s and then 2 s between
successive attempts (two delays for three attempts; the 4 s backoff value
is never reached), and then fails with the rate-limit-specific error; a
non-429 failure, on whichever attempt it occurs (after k prior 429
failures, k at most 2), is propagated immediately: the loop stops at
k + 1 attempts with the upstream error, having slept only the k backoff
delays already owed to the 429s, and no delay for the non-429 error
itself. -/
theorem gemini_retry_C2 (o : List AiAttempt)
    (h3 : 3 ≤ o.length)
    (hall : ∀ a ∈ o, ∃ m, a = AiAttempt.fail (some 429) m) :
    ((geminiSearchWithRetry o).attempts = 3 ∧
     (geminiSearchWithRetry o).delays = [1000, 2000] ∧
     (geminiSearchWithRetry o).result =
       GemResult.error GemError.rateLimitExceeded) ∧
    (∀ pre s m rest,
      (∀ a ∈ pre, ∃ mm, a = AiAttempt.fail (some 429) mm) →
      pre.length < 3 → s ≠ some 429 →
      geminiSearchWithRetry (pre ++ AiAttempt.fail s m :: rest) =
        ⟨GemResult.error (GemError.upstream s m), pre.length + 1,
         (List.range pre.length).map (fun i => 2 ^ i * 1000)⟩) := by
  constructor
  · match o, h3 with
    | a :: b :: c :: rest, _ =>
      obtain ⟨m1, rfl⟩ := hall a (by simp)
      obtain ⟨m2, rfl⟩ := hall b (by simp)
      obtain ⟨m3, rfl⟩ := hall c (by simp)
      have hrun : geminiSearchWithRetry
          (AiAttempt.fail (some 429) m1 :: AiAttempt.fail (some 429) m2 ::
           AiAttempt.fail (some 429) m3 :: rest) =
          ⟨GemResult.error GemError.rateLimitExceeded, 3, [1000, 2000]⟩ := rfl
      rw [hrun]
      exact ⟨rfl, rfl, rfl⟩
  · intro pre s m rest hpre hlen hs
    show geminiAttemptLoop (pre ++ AiAttempt.fail s m :: rest) 0 3 = _
    rcases pre with _ | ⟨a, _ | ⟨b, _ | ⟨c, pre2⟩⟩⟩
    · rw [List.nil_append, geminiAttemptLoop_non429_stop s m rest 0 hs]
      rfl
    · obtain ⟨m1, rfl⟩ := hpre a (by simp)
      simp only [List.cons_append, List.nil_append]
      rw [geminiAttemptLoop_retry_step m1 _ 0 (by omega),
        geminiAttemptLoop_non429_stop s m rest 1 hs]
      rfl
    · obtain ⟨m1, rfl⟩ := hpre a (by simp)
      obtain ⟨m2, rfl⟩ := hpre b (by simp)
      simp only [List.cons_append, List.nil_append]
      rw [geminiAttemptLoop_retry_step m1 _ 0 (by omega),
        geminiAttemptLoop_retry_step m2 _ 1 (by omega),
        geminiAttemptLoop_non429_stop s m rest 2 hs]
      rfl
    · exfalso
      simp only [List.length_cons] at hlen
      omega

/-- Witness for gemini_retry_C2: the persistent-429 oracle satisfies the
hypotheses and produces 3 attempts, the two delays, and the rate-limit
failure; the mixed oracle of one 429 and then a 500 stops at attempt two
with the upstream error and only the one delay already slept. -/
theorem gemini_retry_C2_witness :
    ((geminiSearchWithRetry persistent429).attempts = 3 ∧
     (geminiSearchWithRetry persistent429).delays = [1000, 2000] ∧
     (geminiSearchWithRetry persistent429).result =
       GemResult.error GemError.rateLimitExceeded) ∧
    geminiSearchWithRetry
        [AiAttempt.fail (some 429) "Request failed with status code 429",
         AiAttempt.fail (some 500) "Request failed with status code 500"] =
      ⟨GemResult.error (GemError.upstream (some 500)
          "Request failed with status code 500"), 2, [1000]⟩ := by
  have h := gemini_retry_C2 persistent429 (by decide)
    (by
      intro a ha
      simp only [persistent429, List.mem_cons, List.not_mem_nil,
        or_false] at ha
      rcases ha with rfl | rfl | rfl <;>
        exact ⟨"Request failed with status code 429", rfl⟩)
  refine ⟨h.1, ?_⟩
  exact h.2 [AiAttempt.fail (some 429) "Request failed with status code 429"]
    (some 500) "Request failed with status code 500" []
    (by
      intro a ha
      simp only [List.mem_singleton] at ha
      exact ⟨"Request failed with status code 429", by rw [ha]⟩)
    (by decide) (by decide)

/-- The empty-matches object the defensive parse falls back to. -/
def emptyMatchesJson : Json := Json.obj [("matches", Json.arr [])]

/-- C5 counterexample: the parse is not total. On the raw text
`\x7bbad\x7d` the direct parse fails, brace extraction succeeds and
returns the whole text, and its parse fails again: the thrown parse error
propagates out of the catch block instead of an empty match set being
returned. -/
theorem gemini_parse_C5_cex :
    braceExtract "\x7bbad\x7d" = some "\x7bbad\x7d" ∧
    geminiParse "\x7bbad\x7d" = .error "SyntaxError" := ⟨rfl, rfl⟩

/-- C5 (amended): the resolver first attempts a direct JSON parse of the
raw text; on failure it extracts the substring running from the first
opening brace to the last closing brace and parses that; when no such
substring exists it returns the empty match set; but when the extracted
substring itself fails to parse, the parse error propagates to the caller
rather than an empty match set being returned. -/
theorem gemini_parse_C5 (raw : String) :
    (∀ v, parseJson raw = some v → geminiParse raw = .ok v) ∧
    (parseJson raw = none → braceExtract raw = none →
      geminiParse raw = .ok emptyMatchesJson) ∧
    (∀ s, parseJson raw = none → braceExtract raw = some s →
      parseJson s = none → geminiParse raw = .error "SyntaxError") ∧
    (∀ s v, parseJson raw = none → braceExtract raw = some s →
      parseJson s = some v → geminiParse raw = .ok v) := by
  refine ⟨?_, ?_, ?_, ?_⟩
  · intro v hv
    simp only [geminiParse, hv]
  · intro h1 h2
    simp only [geminiParse, h1, h2]
    rfl
  · intro s h1 h2 h3
    simp only [geminiParse, h1, h2, h3]
  · intro s v h1 h2 h3
    simp only [geminiParse, h1, h2, h3]

/-- Witness for gemini_parse_C5: a plain text with no brace at all falls
back to the empty match set. -/
theorem gemini_parse_C5_witness :
    parseJson "no json here at all" = none ∧
    braceExtract "no json here at all" = none ∧
    geminiParse "no json here at all" = .ok emptyMatchesJson :=
  ⟨rfl, rfl, (gemini_parse_C5 "no json here at all").2.1 rfl rfl⟩

/-- Six distinct capsule titles. -/
def sixTitles : List String := ["T1", "T2", "T3", "T4", "T5", "T6"]

/-- A six-capsule catalog, every capsule imaged. -/
def sixCatalog : List ProductCapsule :=
  sixTitles.map (fun t => mkCapsule t (some "http://img/t"))

/-- A well-formed AI response naming all six titles. -/
def sixJsonText : String :=
  "\x7b\"matches\":[\"T1\",\"T2\",\"T3\",\"T4\",\"T5\",\"T6\"]\x7d"

/-- The parsed value of sixJsonText. -/
def sixMatchesJson : Json :=
  Json.obj [("matches", Json.arr (sixTitles.map Json.str))]

/-- C9 counterexample: the five-match ceiling is only an instruction
inside the prompt text; the resolver uses the parsed response verbatim.
An AI response naming six catalog titles yields a six-element match set
and a six-element matched-capsule list. -/
theorem matched_bound_C9_cex :
    (geminiSearchWithRetry [AiAttempt.respond (some sixJsonText)]).result =
      GemResult.ok sixMatchesJson ∧
    resultMatches sixMatchesJson = some (sixTitles.map Json.str) ∧
    (sixTitles.map Json.str).length = 6 ∧
    (matchedProducts sixCatalog (sixTitles.map Json.str)).length = 6 ∧
    ¬ (matchedProducts sixCatalog (sixTitles.map Json.str)).length ≤ 5 :=
  ⟨rfl, rfl, rfl, rfl, by decide⟩

/-- C9 (amended): the code does not enforce the bound, so it holds only
conditionally: whenever the parsed match array has at most five elements
and the catalog capsule titles are pairwise distinct, the matched-capsule
list of the handler has at most five items. -/
theorem matched_bound_C9 (products : List ProductCapsule) (xs : List Json)
    (hx : xs.length ≤ 5)
    (ht : (products.map (fun p => p.title)).Nodup) :
    (matchedProducts products xs).length ≤ 5 := by
  have hsub : (matchedProducts products xs).map
      (fun p => Json.str p.title) ⊆ xs := by
    intro j hj
    rw [List.mem_map] at hj
    obtain ⟨p, hp, rfl⟩ := hj
    unfold matchedProducts at hp
    rw [List.mem_filter, Bool.and_eq_true] at hp
    exact (jsArrContainsStr_eq_true_iff xs p.title).mp hp.2.1
  have hsl : List.Sublist (matchedProducts products xs) products :=
    List.filter_sublist _
  have h1 : ((matchedProducts products xs).map (fun p => p.title)).Nodup :=
    List.Nodup.sublist (List.Sublist.map (fun p => p.title) hsl) ht
  have hnd : ((matchedProducts products xs).map
      (fun p => Json.str p.title)).Nodup := by
    have h2 := List.Nodup.map (fun a b hab => Json.str.inj hab) h1
    simpa [List.map_map] using h2
  have hsp : List.Subperm ((matchedProducts products xs).map
      (fun p => Json.str p.title)) xs :=
    List.subperm_of_subset hnd hsub
  calc (matchedProducts products xs).length
      = ((matchedProducts products xs).map
          (fun p => Json.str p.title)).length := (List.length_map _ _).symm
    _ ≤ xs.length := hsp.length_le
    _ ≤ 5 := hx

/-- Witness for matched_bound_C9: a single named title against a
two-capsule catalog with distinct titles stays within the bound. -/
theorem matched_bound_C9_witness :
    ([Json.str "A"] : List Json).length ≤ 5 ∧
    (([mkCapsule "A" (some "u"), mkCapsule "B" none]).map
        (fun p => p.title)).Nodup ∧
    (matchedProducts [mkCapsule "A" (some "u"), mkCapsule "B" none]
        [Json.str "A"]).length ≤ 5 :=
  ⟨by decide, by decide, matched_bound_C9 _ _ (by decide) (by decide)⟩

lemma searchMiss_ok_inv (st : HandlerState) (q ck : String) (now : Nat)
    (pages : List PageResponse) (ai : List AiAttempt)
    (p : ResponsePayload) (st2 : HandlerState) (c : HandlerCalls)
    (h : searchMiss st q ck now pages ai = (.okPayload p, st2, c)) :
    p.cached = false ∧ p.searchQuery = q ∧
    st2.searchCache = (evictOld (mapSet st.searchCache ck ⟨p, now⟩)).1 := by
  unfold searchMiss at h
  split at h
  · simp at h
  · simp at h
  · split at h
    · simp at h
    · split at h
      · simp at h
      · rw [Prod.mk.injEq, Prod.mk.injEq] at h
        obtain ⟨hresp, hstate, _⟩ := h
        rw [HandlerResponse.okPayload.injEq] at hresp
        subst hresp
        subst hstate
        exact ⟨rfl, rfl, rfl⟩

lemma handle_ok_query_ne (st : HandlerState) (q : String) (now : Nat)
    (pages : List PageResponse) (ai : List AiAttempt)
    (p : ResponsePayload) (st2 : HandlerState) (c : HandlerCalls)
    (h : handlePost st (some q) now pages ai = (.okPayload p, st2, c)) :
    q ≠ "" := by
  intro h0
  subst h0
  simp [handlePost] at h

lemma handle_hit_after_miss (st0 : HandlerState) (q1 q2 : String)
    (now1 now2 : Nat) (pages pages2 : List PageResponse)
    (ai ai2 : List AiAttempt) (p1 : ResponsePayload) (st1 : HandlerState)
    (c1 : HandlerCalls)
    (h1 : handlePost st0 (some q1) now1 pages ai = (.okPayload p1, st1, c1))
    (hmiss : p1.cached = false)
    (hsize : st0.searchCache.length ≤ 99)
    (hq2 : q2 ≠ "")
    (hkey : normalizeKey q2 = normalizeKey q1)
    (hfresh : now2 - now1 < SEARCH_CACHE_DURATION) :
    handlePost st1 (some q2) now2 pages2 ai2 =
      (.okPayload { p1 with
          cached := true
          cacheAge := some (cacheAgeString now2 now1) }, st1, ⟨0, 0⟩) ∧
    p1.searchQuery = q1 := by
  have hq1 : q1 ≠ "" := handle_ok_query_ne _ _ _ _ _ _ _ _ h1
  have hm : searchMiss st0 q1 (normalizeKey q1) now1 pages ai =
      (.okPayload p1, st1, c1) := by
    cases hget : mapGet st0.searchCache (normalizeKey q1) with
    | none =>
      simp only [handlePost, if_neg hq1, hget] at h1
      exact h1
    | some entry =>
      simp only [handlePost, if_neg hq1, hget] at h1
      by_cases hf : now1 - entry.timestamp < SEARCH_CACHE_DURATION
      · rw [if_pos hf] at h1
        rw [Prod.mk.injEq, Prod.mk.injEq] at h1
        obtain ⟨hresp, _, _⟩ := h1
        rw [HandlerResponse.okPayload.injEq] at hresp
        have hpt : p1.cached = true := by rw [← hresp]
        rw [hmiss] at hpt
        exact absurd hpt (by decide)
      · rw [if_neg hf] at h1
        exact h1
  obtain ⟨hc, hsq, hsc⟩ := searchMiss_ok_inv _ _ _ _ _ _ _ _ _ hm
  have hlen : (mapSet st0.searchCache (normalizeKey q1)
      ⟨p1, now1⟩).length ≤ 100 := by
    have := mapSet_length_le st0.searchCache (normalizeKey q1) ⟨p1, now1⟩
    omega
  rw [evictOld_of_le _ hlen] at hsc
  have hget1 : mapGet st1.searchCache (normalizeKey q2) =
      some ⟨p1, now1⟩ := by
    rw [hsc, hkey]
    exact mapGet_mapSet_self _ _ _
  refine ⟨?_, hsq⟩
  simp only [handlePost, if_neg hq2, hget1]
  rw [if_pos hfresh]

/-- C3: when a search for Q succeeds as a cache miss and the identical
string Q is posted again within the five-minute freshness window, the
second response carries the very same payload except that `cached` is
overridden to true and the `cacheAge` annotation is added; the state is
unchanged and the second request makes no Gemini attempt and no product
page request. The size bound keeps the stored entry clear of the eviction
pass. -/
theorem searchCache_hit_C3 (st0 : HandlerState) (q : String)
    (now1 now2 : Nat) (pages pages2 : List PageResponse)
    (ai ai2 : List AiAttempt) (p1 : ResponsePayload) (st1 : HandlerState)
    (c1 : HandlerCalls)
    (h1 : handlePost st0 (some q) now1 pages ai = (.okPayload p1, st1, c1))
    (hmiss : p1.cached = false)
    (hsize : st0.searchCache.length ≤ 99)
    (hfresh : now2 - now1 < SEARCH_CACHE_DURATION) :
    handlePost st1 (some q) now2 pages2 ai2 =
      (.okPayload { p1 with
          cached := true
          cacheAge := some (cacheAgeString now2 now1) }, st1, ⟨0, 0⟩) :=
  (handle_hit_after_miss st0 q q now1 now2 pages pages2 ai ai2 p1 st1 c1
    h1 hmiss hsize (handle_ok_query_ne _ _ _ _ _ _ _ _ h1) rfl hfresh).1

/-- C10: two query strings that normalize (lower-case, trim) to the same
cache key share one entry: after a successful miss for Q1, a request for
Q2 within the window is served from the Q1 entry, and the returned
payload echoes the original text Q1 in its searchQuery field, not the
current text Q2. -/
theorem searchCache_normalized_key_C10 (st0 : HandlerState)
    (q1 q2 : String) (now1 now2 : Nat) (pages pages2 : List PageResponse)
    (ai ai2 : List AiAttempt) (p1 : ResponsePayload) (st1 : HandlerState)
    (c1 : HandlerCalls)
    (h1 : handlePost st0 (some q1) now1 pages ai = (.okPayload p1, st1, c1))
    (hmiss : p1.cached = false)
    (hsize : st0.searchCache.length ≤ 99)
    (hkey : normalizeKey q1 = normalizeKey q2)
    (hq2 : q2 ≠ "")
    (hfresh : now2 - now1 < SEARCH_CACHE_DURATION) :
    handlePost st1 (some q2) now2 pages2 ai2 =
      (.okPayload { p1 with
          cached := true
          cacheAge := some (cacheAgeString now2 now1) }, st1, ⟨0, 0⟩) ∧
    p1.searchQuery = q1 :=
  handle_hit_after_miss st0 q1 q2 now1 now2 pages pages2 ai ai2 p1 st1 c1
    h1 hmiss hsize hq2 hkey.symm hfresh

/-- A one-page product oracle serving the sample node. -/
def pagesW : List PageResponse := [.page false [sampleNode] false none]

/-- A first-attempt Gemini success naming the sample title. -/
def aiW : List AiAttempt :=
  [.respond (some "\x7b\"matches\":[\"Red Shoes\"]\x7d")]

/-- The payload of the successful first search of the witness scenario. -/
def p1W : ResponsePayload :=
  ⟨[sampleCapsule], 1, "Red Shoes", false, none⟩

/-- The state after the successful first search of the witness scenario. -/
def st1W : HandlerState :=
  ⟨[("red shoes", ⟨p1W, 0⟩)], ⟨some [sampleCapsule], 0⟩⟩

/-- Witness for searchCache_hit_C3: the concrete two-request scenario. -/
theorem searchCache_hit_C3_witness :
    handlePost ⟨[], ⟨none, 0⟩⟩ (some "Red Shoes") 0 pagesW aiW =
      (.okPayload p1W, st1W, ⟨1, 1⟩) ∧
    p1W.cached = false ∧
    handlePost st1W (some "Red Shoes") 1000 [] [] =
      (.okPayload { p1W with
          cached := true
          cacheAge := some "1s" }, st1W, ⟨0, 0⟩) := by
  refine ⟨rfl, rfl, ?_⟩
  exact searchCache_hit_C3 ⟨[], ⟨none, 0⟩⟩ "Red Shoes" 0 1000 pagesW []
    aiW [] p1W st1W ⟨1, 1⟩ rfl rfl (by decide) (by decide)

/-- Witness for searchCache_normalized_key_C10: the second request spells
the query with different case and surrounding blanks, is served from the
first entry, and echoes the original text. -/
theorem searchCache_normalized_key_C10_witness :
    normalizeKey "Red Shoes" = normalizeKey " red SHOES " ∧
    handlePost st1W (some " red SHOES ") 1000 [] [] =
      (.okPayload { p1W with
          cached := true
          cacheAge := some "1s" }, st1W, ⟨0, 0⟩) ∧
    p1W.searchQuery = "Red Shoes" := by
  have h := searchCache_normalized_key_C10 ⟨[], ⟨none, 0⟩⟩ "Red Shoes"
    " red SHOES " 0 1000 pagesW [] aiW [] p1W st1W ⟨1, 1⟩ rfl rfl
    (by decide) (by decide) (by decide) (by decide)
  exact ⟨by decide, h.1, h.2⟩

lemma filter_append_drop (T D : List (String × SearchCacheEntry))
    (hdisj : ∀ kv ∈ D, kv.1 ∉ T.map Prod.fst) :
    (T ++ D).filter (fun kv => !((T.map Prod.fst).contains kv.1)) = D := by
  rw [List.filter_append]
  have h1 : T.filter (fun kv => !((T.map Prod.fst).contains kv.1)) = [] := by
    rw [List.filter_eq_nil_iff]
    intro kv hkv
    have hcont : (T.map Prod.fst).contains kv.1 = true :=
      List.elem_eq_true_of_mem (List.mem_map_of_mem Prod.fst hkv)
    rw [hcont]
    decide
  have h2 : D.filter (fun kv => !((T.map Prod.fst).contains kv.1)) = D := by
    rw [List.filter_eq_self]
    intro kv hkv
    have hnm : kv.1 ∉ T.map Prod.fst := hdisj kv hkv
    cases hcc : (T.map Prod.fst).contains kv.1 with
    | false => simp [hcc]
    | true => exact absurd (List.mem_of_elem_eq_true hcc) hnm
  rw [h1, h2, List.nil_append]

/-- C4: the eviction pass removes nothing while the mapping holds at most
100 entries; once it exceeds 100, exactly 20 entries are removed in one
pass, the kept entries are (up to order) the entries of the timestamp
sort minus its first 20, the whole mapping splits into kept plus the 20
removed, and every removed entry carries a timestamp no larger than the
timestamp of every kept entry — the removed 20 are the oldest. -/
theorem evictOld_spec_C4 (sc : List (String × SearchCacheEntry))
    (hk : (sc.map Prod.fst).Nodup) :
    (sc.length ≤ 100 → evictOld sc = (sc, [])) ∧
    (100 < sc.length →
      (evictOld sc).2.length = 20 ∧
      (evictOld sc).1.length = sc.length - 20 ∧
      List.Perm (evictOld sc).1 ((sortedEntries sc).drop 20) ∧
      List.Perm sc ((evictOld sc).1 ++ (sortedEntries sc).take 20) ∧
      (∀ r ∈ (sortedEntries sc).take 20, ∀ q ∈ (evictOld sc).1,
        r.2.timestamp ≤ q.2.timestamp)) := by
  refine ⟨fun h => evictOld_of_le sc h, fun h100 => ?_⟩
  have hperm : List.Perm (sortedEntries sc) sc :=
    List.perm_insertionSort tsLe sc
  have hsorted : List.Sorted tsLe (sortedEntries sc) :=
    List.sorted_insertionSort tsLe sc
  have hlenS : (sortedEntries sc).length = sc.length := hperm.length_eq
  have hSnodup : ((sortedEntries sc).map Prod.fst).Nodup :=
    (hperm.map Prod.fst).nodup_iff.mpr hk
  have hmap : ((sortedEntries sc).map Prod.fst) =
      ((sortedEntries sc).take 20).map Prod.fst ++
        ((sortedEntries sc).drop 20).map Prod.fst := by
    rw [← List.map_append, List.take_append_drop]
  rw [hmap, List.nodup_append] at hSnodup
  have hdisj : ∀ kv ∈ (sortedEntries sc).drop 20,
      kv.1 ∉ ((sortedEntries sc).take 20).map Prod.fst := by
    intro kv hkv hmem
    exact hSnodup.2.2 hmem (List.mem_map_of_mem Prod.fst hkv)
  have hfilS := filter_append_drop ((sortedEntries sc).take 20)
    ((sortedEntries sc).drop 20) hdisj
  rw [List.take_append_drop] at hfilS
  have hfil : List.Perm
      (sc.filter (fun kv =>
        !((((sortedEntries sc).take 20).map Prod.fst).contains kv.1)))
      ((sortedEntries sc).drop 20) := by
    have h := (hperm.filter (fun kv =>
      !((((sortedEntries sc).take 20).map Prod.fst).contains kv.1))).symm
    rwa [hfilS] at h
  have hunfold : evictOld sc =
      (sc.filter (fun kv =>
        !((((sortedEntries sc).take 20).map Prod.fst).contains kv.1)),
       ((sortedEntries sc).take 20).map Prod.fst) := by
    unfold evictOld
    rw [if_pos h100]
  refine ⟨?_, ?_, ?_, ?_, ?_⟩
  · rw [hunfold]
    simp only [List.length_map, List.length_take]
    omega
  · rw [hunfold]
    have hl := hfil.length_eq
    rw [List.length_drop] at hl
    simp only []
    omega
  · rw [hunfold]
    exact hfil
  · have hstep : List.Perm sc
        ((sortedEntries sc).take 20 ++ (sortedEntries sc).drop 20) := by
      rw [List.take_append_drop]
      exact hperm.symm
    have hstep2 : List.Perm sc
        ((sortedEntries sc).drop 20 ++ (sortedEntries sc).take 20) :=
      hstep.trans List.perm_append_comm
    have hstep3 : List.Perm sc
        ((sc.filter (fun kv =>
          !((((sortedEntries sc).take 20).map Prod.fst).contains kv.1))) ++
          (sortedEntries sc).take 20) :=
      hstep2.trans (List.Perm.append_right _ hfil.symm)
    rw [hunfold]
    exact hstep3
  · intro r hr q hq
    rw [hunfold] at hq
    have hqD : q ∈ (sortedEntries sc).drop 20 := hfil.subset hq
    have hpw : List.Pairwise tsLe
        ((sortedEntries sc).take 20 ++ (sortedEntries sc).drop 20) := by
      rw [List.take_append_drop]
      exact hsorted
    exact (List.pairwise_append.mp hpw).2.2 r hr q hqD

/-- A 101-entry search cache with distinct one-character keys and
ascending timestamps. -/
def evictWitnessCache : List (String × SearchCacheEntry) :=
  (List.range 101).map (fun i =>
    (String.mk [Char.ofNat (65 + i)], ⟨⟨[], 0, "q", false, none⟩, i⟩))

/-- Witness for evictOld_spec_C4: at 101 entries exactly 20 keys are
deleted and 81 entries remain. -/
theorem evictOld_spec_C4_witness :
    (evictWitnessCache.map Prod.fst).Nodup ∧
    100 < evictWitnessCache.length ∧
    (evictOld evictWitnessCache).2.length = 20 ∧
    (evictOld evictWitnessCache).1.length = evictWitnessCache.length - 20 :=
  ⟨by decide, by decide,
   ((evictOld_spec_C4 evictWitnessCache (by decide)).2 (by decide)).1,
   ((evictOld_spec_C4 evictWitnessCache (by decide)).2 (by decide)).2.1⟩
